import Mathlib

/-!
Verification of the TWR attribution engine
(`api/services/attribution.py`) of the portfolio-manager repository.

The engine is embedded shallowly: Python floats become `ℚ` (the algorithm
itself is exact rational arithmetic on the inputs), dates and asset ids
become `Nat`, the rows returned by the SQL queries become explicit lists,
and the price / asset-metadata lookups become `Nat → Option _` functions.
`None`/falsy checks of the Python source (`if prev_price and curr_price
and prev_price > 0`) are modelled by matching on `Option ℚ` together with
a `≠ 0` truthiness test, so that `0.0` close prices are falsy exactly as
in CPython.

The source iterates over `all_asset_ids` (a Python `set` of int database
ids) and over the dict `asset_contributions` built from it by
comprehension.  CPython iterates a set in hash-slot order, which for
ints is `id % table_size` with probing — e.g. `{5, 12}` iterates as
`[12, 5]` and `{3, 40}` as `[40, 3]` — so the order is *not* guaranteed
ascending and is not a simple function we re-implement here.  The
embedding therefore takes that iteration order as an explicit input
datum (`AttrInput.assetIdOrder`, the order the runtime actually
produces); the concrete example inputs use the true CPython orders for
their id sets ([1], [1, 2], [1, 2, 3] — ascending, as these ids occupy
their own slots — and [12, 5] for `{5, 12}`).  Dict keys that are
inserted in loop order (the per-date position dicts, the asset-class
dicts) keep first-insertion order, modelled by `pyKeys`.
-/

/-- One row of `PortfolioPositionDaily` as consumed by the engine, after
the `float(x or 0)` coercions applied at grouping time. -/
structure PosRow where
  asset_id : Nat
  as_of_date : Nat
  quantity : ℚ
  market_value : ℚ
deriving DecidableEq, Repr

/-- One row of the `Asset` table (the fields the engine reads).  String
fields are `Option` so that SQL `NULL` and the Python `or` fallbacks can
be modelled faithfully. -/
structure AssetMeta where
  ticker : Option String
  name : Option String
  asset_class : Option String
  region : Option String
deriving DecidableEq, Repr

/-- The data handed to `calculate_twr_attribution` by the (excluded)
data-access layer together with one runtime-determined datum: the
position rows of the requested portfolio and date range (as returned by
the query, already restricted to the range), the price table lookup
`(asset_id, date) ↦ close`, the `Asset` table lookup, and
`assetIdOrder` — the order in which the CPython runtime iterates the set
`all_asset_ids` (hash-slot order of the distinct asset ids appearing in
`positions`; deterministic for a given run but not guaranteed ascending,
e.g. `{5, 12}` iterates as `[12, 5]`). -/
structure AttrInput where
  positions : List PosRow
  price : Nat → Nat → Option ℚ
  asset : Nat → Option AssetMeta
  assetIdOrder : List Nat

/-- `DailyPortfolioReturn` output schema (percent daily return). -/
structure DailyPortfolioReturn where
  date : Nat
  daily_return : ℚ
  portfolio_value : ℚ
deriving DecidableEq, Repr

/-- `AssetWeightTrend` output schema. -/
structure AssetWeightTrend where
  date : Nat
  weight : ℚ
deriving DecidableEq, Repr

/-- `AssetReturnTrend` output schema. -/
structure AssetReturnTrend where
  date : Nat
  cumulative_twr : ℚ
  daily_twr : ℚ
deriving DecidableEq, Repr

/-- `AssetContribution` output schema (the engine's ContributionRecord):
the fields the two attribution functions actually populate. -/
structure AssetContribution where
  asset_id : Nat
  ticker : String
  name : String
  asset_class : String
  region : Option String
  current_allocation : Option ℚ
  avg_weight : ℚ
  period_return : ℚ
  contribution : ℚ
deriving DecidableEq, Repr

/-- `AssetClassContribution` output schema. -/
structure AssetClassContribution where
  asset_class : String
  current_allocation : Option ℚ
  avg_weight : ℚ
  contribution : ℚ
  weight_trend : Option (List AssetWeightTrend)
  return_trend : Option (List AssetReturnTrend)
  assets : Option (List AssetContribution)
deriving DecidableEq, Repr

/-- The dict returned by `calculate_twr_attribution` /
`calculate_detailed_twr_attribution`. -/
structure AttributionReport where
  total_twr : ℚ
  daily_returns : List DailyPortfolioReturn
  asset_class_contributions : List AssetClassContribution
  top_contributors : List AssetContribution
  top_detractors : List AssetContribution
  total_contribution_check : ℚ
deriving DecidableEq, Repr

/-- Decidable equality for `Except` results, so concrete runs of the
engine can be checked by `decide`. -/
instance exceptDecEq {ε α : Type} [DecidableEq ε] [DecidableEq α] :
    DecidableEq (Except ε α) := fun x y =>
  match x, y with
  | .error e, .error f =>
    if h : e = f then isTrue (congrArg Except.error h)
    else isFalse (fun hh => h (Except.error.inj hh))
  | .error _, .ok _ => isFalse (fun hh => Except.noConfusion hh)
  | .ok _, .error _ => isFalse (fun hh => Except.noConfusion hh)
  | .ok a, .ok b =>
    if h : a = b then isTrue (congrArg Except.ok h)
    else isFalse (fun hh => h (Except.ok.inj hh))

/-- Python `x or d` for an optional string: `None` and `""` are falsy. -/
def pyStrOr (s : Option String) (d : String) : String :=
  match s with
  | some v => if v = "" then d else v
  | none => d

/-- First-insertion-order key list of a dict built by repeated
`dict[k] = ...` writes in loop order (CPython dicts preserve insertion
order; re-writing an existing key keeps its original slot). -/
def pyKeys [DecidableEq α] (l : List α) : List α :=
  l.foldl (fun acc x => if x ∈ acc then acc else acc ++ [x]) []

/-- The rows that end up in `positions_by_date[d][a]`; the dict write in
the grouping loop makes the last row for a `(date, asset)` pair win. -/
def rowsFor (pos : List PosRow) (d a : Nat) : List PosRow :=
  pos.filter (fun p => p.as_of_date = d ∧ p.asset_id = a)

/-- `positions_by_date[d].get(a, {}).get('market_value', 0.0)`. -/
def mvAt (pos : List PosRow) (d a : Nat) : ℚ :=
  ((rowsFor pos d a).getLast?).elim 0 (·.market_value)

/-- The distinct asset ids present on date `d`
(the keys of `positions_by_date[d]`). -/
def assetsAt (pos : List PosRow) (d : Nat) : List Nat :=
  ((pos.filter (fun p => p.as_of_date = d)).map (·.asset_id)).dedup

/-- `sum(pos['market_value'] for pos in positions_by_date[d].values())`. -/
def totalMV (pos : List PosRow) (d : Nat) : ℚ :=
  ((assetsAt pos d).map (mvAt pos d)).sum

/-- `all_asset_ids`: the set of asset ids appearing in the positions. -/
def allAssetIds (pos : List PosRow) : List Nat :=
  (pos.map (·.asset_id)).dedup

/-- `sorted_dates = sorted(positions_by_date.keys())`. -/
def sortedDates (pos : List PosRow) : List Nat :=
  List.insertionSort (· ≤ ·) ((pos.map (·.as_of_date)).dedup)

/-- The `(prev_date, current_date)` pairs walked by the daily loop
(index `i ≥ 1` pairs `sorted_dates[i-1]` with `sorted_dates[i]`). -/
def dayBoundaries (pos : List PosRow) : List (Nat × Nat) :=
  (sortedDates pos).zip (sortedDates pos).tail

/-- The asset daily return of the loop body: `price_data.get` on both
dates, then `if prev_price and curr_price and prev_price > 0:` (Python
truthiness: a missing price or a `0.0` price falls to the `else`),
else `asset_return = 0.0`. -/
def assetDayReturn (inp : AttrInput) (a pd cd : Nat) : ℚ :=
  match inp.price a pd, inp.price a cd with
  | some p, some c => if p ≠ 0 ∧ c ≠ 0 ∧ 0 < p then c / p - 1 else 0
  | _, _ => 0

/-- `weight_prev = prev_mv / prev_total_mv if prev_total_mv > 0 else 0.0`. -/
def weightPrev (inp : AttrInput) (d a : Nat) : ℚ :=
  if 0 < totalMV inp.positions d then mvAt inp.positions d a / totalMV inp.positions d else 0

/-- `contribution = weight_prev * asset_return`, one asset, one boundary. -/
def dayTerm (inp : AttrInput) (pd cd a : Nat) : ℚ :=
  weightPrev inp pd a * assetDayReturn inp a pd cd

/-- `daily_portfolio_return`: the loop over `all_asset_ids` (in the
runtime's set-iteration order) accumulating `weight_prev * asset_return`. -/
def dailyPortfolioReturn (inp : AttrInput) (pd cd : Nat) : ℚ :=
  (inp.assetIdOrder.map (dayTerm inp pd cd)).sum

/-- `asset_contributions[a]` after the daily loop: boundaries whose
previous date has `prev_total_mv <= 0` are skipped (`continue`) and
contribute nothing. -/
def contribAccum (inp : AttrInput) (a : Nat) : ℚ :=
  (dayBoundaries inp.positions).foldl
    (fun acc b => if 0 < totalMV inp.positions b.1 then acc + dayTerm inp b.1 b.2 a else acc) 0

/-- The `daily_returns` list: the first date is emitted with return `0`,
every later boundary with positive previous-day total market value is
emitted with the percent daily portfolio return, and boundaries with
non-positive previous-day total are skipped entirely. -/
def dailyReturnsList (inp : AttrInput) : List DailyPortfolioReturn :=
  match sortedDates inp.positions with
  | [] => []
  | d0 :: _ =>
    ⟨d0, 0, totalMV inp.positions d0⟩ ::
      (dayBoundaries inp.positions).filterMap (fun b =>
        if 0 < totalMV inp.positions b.1 then
          some ⟨b.2, dailyPortfolioReturn inp b.1 b.2 * 100, totalMV inp.positions b.2⟩
        else none)

/-- `total_twr`: multiplicative chaining of the emitted daily returns,
then `(x - 1) * 100`. -/
def totalTWR (inp : AttrInput) : ℚ :=
  ((dailyReturnsList inp).foldl (fun acc dr => acc * (1 + dr.daily_return / 100)) 1 - 1) * 100

/-- The `(total_weight, weight_count)` accumulator of step 7: all dates
except the last, counting every date with positive total market value
(whether or not the asset itself was held). -/
def avgWeightAccum (inp : AttrInput) (a : Nat) : ℚ × Nat :=
  ((sortedDates inp.positions).dropLast).foldl
    (fun acc d =>
      if 0 < totalMV inp.positions d then
        (acc.1 + mvAt inp.positions d a / totalMV inp.positions d, acc.2 + 1)
      else acc) (0, 0)

/-- `avg_weight = (total_weight / weight_count * 100) if weight_count > 0 else 0.0`. -/
def avgWeight (inp : AttrInput) (a : Nat) : ℚ :=
  if 0 < (avgWeightAccum inp a).2 then
    (avgWeightAccum inp a).1 / ((avgWeightAccum inp a).2 : ℚ) * 100
  else 0

/-- Step 7 period return: prices at the first and last `sorted_dates`
(the window's outer dates), guarded by the same Python truthiness test
as the daily returns. -/
def periodReturn (inp : AttrInput) (a : Nat) : ℚ :=
  match (sortedDates inp.positions).head?, (sortedDates inp.positions).getLast? with
  | some df, some dl =>
    match inp.price a df, inp.price a dl with
    | some fp, some lp => if fp ≠ 0 ∧ lp ≠ 0 ∧ 0 < fp then (lp / fp - 1) * 100 else 0
    | _, _ => 0
  | _, _ => 0

/-- Step 7 current allocation: the asset's weight on the latest date,
`0` when the latest total market value is not positive. -/
def currentAllocation (inp : AttrInput) (a : Nat) : ℚ :=
  match (sortedDates inp.positions).getLast? with
  | some dl =>
    if 0 < totalMV inp.positions dl then
      mvAt inp.positions dl a / totalMV inp.positions dl * 100
    else 0
  | none => 0

/-- One `AssetContribution` record of step 7; assets missing from the
`Asset` table are skipped (`if asset_id not in asset_info: continue`). -/
def mkDetail (inp : AttrInput) (a : Nat) : Option AssetContribution :=
  match inp.asset a with
  | none => none
  | some m =>
    some
      { asset_id := a
        ticker := pyStrOr m.ticker ""
        name := pyStrOr m.name (pyStrOr m.ticker ("Asset_" ++ toString a))
        asset_class := pyStrOr m.asset_class "Unknown"
        region := none
        current_allocation := some (currentAllocation inp a)
        avg_weight := avgWeight inp a
        period_return := periodReturn inp a
        contribution := contribAccum inp a * 100 }

/-- `asset_details`: the full ContributionRecord list, in the iteration
order of `asset_contributions.items()` — the dict comprehension built
over `all_asset_ids` preserves the set's iteration order. -/
def assetDetails (inp : AttrInput) : List AssetContribution :=
  inp.assetIdOrder.filterMap (mkDetail inp)

/-- Step 8 class aggregation of the basic function: group the records by
`asset_class` (dict first-insertion order), summing contribution and
avg_weight. -/
def classList (inp : AttrInput) : List AssetClassContribution :=
  (pyKeys ((assetDetails inp).map (·.asset_class))).map (fun ac =>
    let members := (assetDetails inp).filter (fun r => r.asset_class = ac)
    { asset_class := ac
      current_allocation := none
      avg_weight := (members.map (·.avg_weight)).sum
      contribution := (members.map (·.contribution)).sum
      weight_trend := none
      return_trend := none
      assets := some members })

/-- The comparison used by `sorted(key=..., reverse=True)`: `x` may stay
before `y` exactly when `y.contribution ≤ x.contribution`; inserting
before the first such element reproduces Python's stable descending
sort. -/
def contribGE (x y : AssetContribution) : Prop :=
  y.contribution ≤ x.contribution

instance : DecidableRel contribGE := fun x y =>
  inferInstanceAs (Decidable (y.contribution ≤ x.contribution))

instance : IsTotal AssetContribution contribGE :=
  ⟨fun x y => le_total y.contribution x.contribution⟩

instance : IsTrans AssetContribution contribGE :=
  ⟨fun _ _ _ h1 h2 => le_trans h2 h1⟩

/-- `sorted_assets = sorted(asset_details, key=..., reverse=True)`. -/
def rankedDetails (inp : AttrInput) : List AssetContribution :=
  List.insertionSort contribGE (assetDetails inp)

/-- `top_contributors = [a for a in sorted_assets if a.contribution > 0]`. -/
def topContributors (inp : AttrInput) : List AssetContribution :=
  (rankedDetails inp).filter (fun r => 0 < r.contribution)

/-- `top_detractors = [a for a in sorted_assets if a.contribution < 0]`. -/
def topDetractors (inp : AttrInput) : List AssetContribution :=
  (rankedDetails inp).filter (fun r => r.contribution < 0)

/-- The report built in the non-error branch of `calculate_twr_attribution`. -/
def buildReport (inp : AttrInput) : AttributionReport :=
  { total_twr := totalTWR inp
    daily_returns := dailyReturnsList inp
    asset_class_contributions := classList inp
    top_contributors := topContributors inp
    top_detractors := topDetractors inp
    total_contribution_check := ((assetDetails inp).map (·.contribution)).sum }

/-- `calculate_twr_attribution`: raises (`Except.error`) exactly when the
position query returns no rows; otherwise the full report is returned.
The `try/except` wrapper only prints and re-raises. -/
def calculate_twr_attribution (inp : AttrInput) : Except String AttributionReport :=
  if inp.positions.isEmpty then
    .error "No position data found for the specified period"
  else
    .ok (buildReport inp)

/-- `AssetFilter` request enum. -/
inductive AssetFilter where
  | all
  | domestic
  | foreign
deriving DecidableEq, Repr

/-- The position query of `calculate_detailed_twr_attribution`: for a
non-`ALL` filter the query inner-joins the `Asset` table and keeps rows
whose asset's `region` equals the filter value (`NULL` regions and
assets missing from the table drop out of the join). -/
def filteredPositions (inp : AttrInput) (f : AssetFilter) : List PosRow :=
  match f with
  | .all => inp.positions
  | .domestic =>
    inp.positions.filter (fun p =>
      match inp.asset p.asset_id with
      | some m => m.region = some "domestic"
      | none => false)
  | .foreign =>
    inp.positions.filter (fun p =>
      match inp.asset p.asset_id with
      | some m => m.region = some "foreign"
      | none => false)

/-- Step 4 of the detailed function: walk the basic result's
`top_contributors + top_detractors`, attach the region, and keep the
records passing the filter.  `asset_info` there is keyed by the asset
ids of the *filtered* positions, so a record whose id is absent from
them (or from the `Asset` table) is dropped. -/
def filteredAssets (inp : AttrInput) (f : AssetFilter) (basic : AttributionReport) :
    List AssetContribution :=
  (basic.top_contributors ++ basic.top_detractors).filterMap (fun ad =>
    if ad.asset_id ∈ allAssetIds (filteredPositions inp f) then
      match inp.asset ad.asset_id with
      | some m =>
        let ad' := { ad with region := m.region }
        match f with
        | .all => some ad'
        | .domestic => if ad'.region = some "domestic" then some ad' else none
        | .foreign => if ad'.region = some "foreign" then some ad' else none
      | none => none
    else none)

/-- `asset_info.get(asset_id)` of the detailed function followed by
`asset.asset_class or "Unknown"`. -/
def detailClassOf (inp : AttrInput) (pos : List PosRow) (ad : AssetContribution) :
    Option String :=
  if ad.asset_id ∈ allAssetIds pos then
    (inp.asset ad.asset_id).map (fun m => pyStrOr m.asset_class "Unknown")
  else none

/-- Market value of one asset class on one date: the rows of
`positions_by_date[d]` whose asset is in the `Asset` table with this
class. -/
def classMV (inp : AttrInput) (pos : List PosRow) (ac : String) (d : Nat) : ℚ :=
  (((assetsAt pos d).filter (fun a =>
      match inp.asset a with
      | some m => pyStrOr m.asset_class "Unknown" = ac
      | none => false)).map (mvAt pos d)).sum

/-- Per-class weight trend of the detailed function: class market value
over the *filtered* portfolio total, per date. -/
def classWeightTrend (inp : AttrInput) (pos : List PosRow) (ac : String) :
    List AssetWeightTrend :=
  (sortedDates pos).map (fun d =>
    ⟨d, if 0 < totalMV pos d then classMV inp pos ac d / totalMV pos d * 100 else 0⟩)

/-- Per-class TWR trend of the detailed function: `base_value` is the
class market value on the first date; cumulative and daily returns are
market-value ratios with Python truthiness guards. -/
def classReturnTrend (inp : AttrInput) (pos : List PosRow) (ac : String) :
    List AssetReturnTrend :=
  match sortedDates pos with
  | [] => []
  | d0 :: rest =>
    let base := classMV inp pos ac d0
    let cum := fun d =>
      if base ≠ 0 ∧ 0 < base then (classMV inp pos ac d / base - 1) * 100 else 0
    ⟨d0, cum d0, 0⟩ ::
      ((d0 :: rest).zip rest).map (fun b =>
        ⟨b.2, cum b.2,
          if 0 < classMV inp pos ac b.1 then
            (classMV inp pos ac b.2 / classMV inp pos ac b.1 - 1) * 100
          else 0⟩)

/-- Step 5 of the detailed function: the enhanced per-class records with
chart data, grouped in first-insertion order over the filtered assets. -/
def enhancedClassList (inp : AttrInput) (f : AssetFilter) (basic : AttributionReport) :
    List AssetClassContribution :=
  let pos := filteredPositions inp f
  let fa := filteredAssets inp f basic
  (pyKeys (fa.filterMap (detailClassOf inp pos))).map (fun ac =>
    let members := fa.filter (fun ad => detailClassOf inp pos ad = some ac)
    let wt := classWeightTrend inp pos ac
    { asset_class := ac
      current_allocation := some ((wt.getLast?).elim 0 (·.weight))
      avg_weight := (members.map (·.avg_weight)).sum
      contribution := (members.map (·.contribution)).sum
      weight_trend := some wt
      return_trend := some (classReturnTrend inp pos ac)
      assets := some members })

/-- `calculate_detailed_twr_attribution`: errors when the filtered
position query is empty, otherwise delegates the whole portfolio-level
computation to `calculate_twr_attribution` (without the filter) and
re-ranks the filtered records. -/
def calculate_detailed_twr_attribution (inp : AttrInput) (f : AssetFilter) :
    Except String AttributionReport :=
  if (filteredPositions inp f).isEmpty then
    .error "No position data found for the specified period and filter"
  else
    match calculate_twr_attribution inp with
    | .error e => .error e
    | .ok basic =>
      .ok
        { total_twr := basic.total_twr
          daily_returns := basic.daily_returns
          asset_class_contributions := enhancedClassList inp f basic
          top_contributors :=
            (List.insertionSort contribGE (filteredAssets inp f basic)).filter
              (fun r => 0 < r.contribution)
          top_detractors :=
            (List.insertionSort contribGE (filteredAssets inp f basic)).filter
              (fun r => r.contribution < 0)
          total_contribution_check :=
            ((filteredAssets inp f basic).map (·.contribution)).sum }

/-- Closed form of the per-asset accumulator: the sum of the daily
`weight × return` terms over the boundaries that are actually processed
(positive previous-day total market value). -/
def contributionSum (inp : AttrInput) (a : Nat) : ℚ :=
  (((dayBoundaries inp.positions).filter (fun b => 0 < totalMV inp.positions b.1)).map
    (fun b => weightPrev inp b.1 a * assetDayReturn inp a b.1 b.2)).sum

/-- The non-final snapshot dates with positive total market value: the
dates counted by the step-7 `weight_count` accumulator. -/
def validPriorDates (inp : AttrInput) : List Nat :=
  ((sortedDates inp.positions).dropLast).filter
    (fun d => decide (0 < totalMV inp.positions d))

/-- Closed form of the step-7 average weight: the mean of the asset's
prior-day weight over *all* non-final snapshot dates with positive total
market value (whether or not the asset was held there), times 100. -/
def avgWeightAllBoundaries (inp : AttrInput) (a : Nat) : ℚ :=
  if 0 < (validPriorDates inp).length then
    ((validPriorDates inp).map (fun d => mvAt inp.positions d a / totalMV inp.positions d)).sum
      / ((validPriorDates inp).length : ℚ) * 100
  else 0

/-- The non-final snapshot dates on which the asset has nonzero prior
weight (the denominator claim C6 asks for). -/
def heldPriorDates (inp : AttrInput) (a : Nat) : List Nat :=
  ((sortedDates inp.positions).dropLast).filter
    (fun d => decide (weightPrev inp d a ≠ 0))

/-- The average weight as claim C6 states it: the mean of
`weight[asset, t-1]` taken only over the day boundaries on which the
asset had nonzero prior weight. -/
def claimAvgWeight (inp : AttrInput) (a : Nat) : ℚ :=
  if 0 < (heldPriorDates inp a).length then
    ((heldPriorDates inp a).map (fun d => weightPrev inp d a)).sum
      / ((heldPriorDates inp a).length : ℚ) * 100
  else 0

/-- Entry date as claim C7 / spec §4.3 state it: the earliest date in
range on which the asset has positive market value. -/
def entryDate (inp : AttrInput) (a : Nat) : Option Nat :=
  ((sortedDates inp.positions).filter (fun d => decide (0 < mvAt inp.positions d a))).head?

/-- Exit date as claim C7 / spec §4.3 state it: the latest date in range
on which the asset has positive market value. -/
def exitDate (inp : AttrInput) (a : Nat) : Option Nat :=
  ((sortedDates inp.positions).filter (fun d => decide (0 < mvAt inp.positions d a))).getLast?

/-- The period return as claim C7 states it: `P1/P0 - 1` (in percent)
from the holding-period entry/exit prices. -/
def claimPeriodReturn (inp : AttrInput) (a : Nat) : ℚ :=
  match entryDate inp a, exitDate inp a with
  | some de, some dx =>
    match inp.price a de, inp.price a dx with
    | some p0, some p1 => if 0 < p0 then (p1 / p0 - 1) * 100 else 0
    | _, _ => 0
  | _, _ => 0

/-- The ranking order claim C9 states: contribution strictly descending,
ties broken by ascending asset id. -/
def rankLT (x y : AssetContribution) : Prop :=
  y.contribution < x.contribution ∨
    (y.contribution = x.contribution ∧ x.asset_id < y.asset_id)

/-- Asset 1 metadata used by the concrete scenarios. -/
def m1 : AssetMeta := ⟨some "AAA", some "Asset A", some "Equity", some "domestic"⟩

/-- Asset 2 metadata used by the concrete scenarios. -/
def m2 : AssetMeta := ⟨some "BBB", some "Asset B", some "Bond", some "foreign"⟩

/-- Asset 3 metadata used by the concrete scenarios. -/
def m3 : AssetMeta := ⟨some "CCC", some "Asset C", some "Equity", some "domestic"⟩

/-- One asset, fully invested, price doubling on each of two day
boundaries: the additive contribution sum (200%) and the compounded TWR
(300%) differ by 100 percentage points. -/
def exInp1 : AttrInput :=
  { positions := [⟨1, 0, 0, 100⟩, ⟨1, 1, 0, 200⟩, ⟨1, 2, 0, 400⟩]
    price := fun a d =>
      if a = 1 then
        (if d = 0 then some 100 else if d = 1 then some 200 else if d = 2 then some 400 else none)
      else none
    asset := fun a => if a = 1 then some m1 else none
    assetIdOrder := [1] }

/-- The spec §8 concrete scenario: two assets with prior weights 0.6 and
0.4, prices 100→110 and 50→45 over one day boundary. -/
def exInp2 : AttrInput :=
  { positions := [⟨1, 0, 0, 60⟩, ⟨2, 0, 0, 40⟩, ⟨1, 1, 0, 66⟩, ⟨2, 1, 0, 36⟩]
    price := fun a d =>
      if a = 1 then (if d = 0 then some 100 else if d = 1 then some 110 else none)
      else if a = 2 then (if d = 0 then some 50 else if d = 1 then some 45 else none)
      else none
    asset := fun a => if a = 1 then some m1 else if a = 2 then some m2 else none
    assetIdOrder := [1, 2] }

/-- A single snapshot date: one position row, no computable day
boundary. -/
def exInp3 : AttrInput :=
  { positions := [⟨1, 5, 0, 100⟩]
    price := fun _ _ => none
    asset := fun a => if a = 1 then some m1 else none
    assetIdOrder := [1] }

/-- Two snapshot dates whose first has zero total market value: the one
day boundary is dropped from the report entirely. -/
def exInp4 : AttrInput :=
  { positions := [⟨1, 0, 0, 0⟩, ⟨1, 1, 0, 100⟩]
    price := fun _ _ => none
    asset := fun a => if a = 1 then some m1 else none
    assetIdOrder := [1] }

/-- The concrete two-asset scenario extended with an asset (id 3) that
is present in the position table but holds market value 0 on every
date. -/
def exInp5 : AttrInput :=
  { positions := [⟨1, 0, 0, 60⟩, ⟨2, 0, 0, 40⟩, ⟨3, 0, 0, 0⟩,
                  ⟨1, 1, 0, 66⟩, ⟨2, 1, 0, 36⟩, ⟨3, 1, 0, 0⟩]
    price := fun a d =>
      if a = 1 then (if d = 0 then some 100 else if d = 1 then some 110 else none)
      else if a = 2 then (if d = 0 then some 50 else if d = 1 then some 45 else none)
      else none
    asset := fun a =>
      if a = 1 then some m1 else if a = 2 then some m2 else if a = 3 then some m3 else none
    assetIdOrder := [1, 2, 3] }

/-- Asset 1 holds weight 1/2 on the first date and weight 0 on the
second of three dates: the code divides its summed weight by the count
of *all* boundaries (2), not by the count of boundaries on which it was
held (1). -/
def exInp6 : AttrInput :=
  { positions := [⟨1, 0, 0, 50⟩, ⟨2, 0, 0, 50⟩, ⟨1, 1, 0, 0⟩, ⟨2, 1, 0, 100⟩, ⟨2, 2, 0, 100⟩]
    price := fun _ _ => none
    asset := fun a => if a = 1 then some m1 else if a = 2 then some m2 else none
    assetIdOrder := [1, 2] }

/-- Asset 1 is first bought on the second of three dates (market value 0
at the window start), with prices 100 / 50 / 60: its holding-period
return is +20% but the code reports 60/100 - 1 = -40%. -/
def exInp7 : AttrInput :=
  { positions := [⟨2, 0, 0, 100⟩, ⟨1, 1, 0, 50⟩, ⟨2, 1, 0, 100⟩, ⟨1, 2, 0, 60⟩, ⟨2, 2, 0, 100⟩]
    price := fun a d =>
      if a = 1 then
        (if d = 0 then some 100 else if d = 1 then some 50 else if d = 2 then some 60 else none)
      else if a = 2 then some 10 else none
    asset := fun a => if a = 1 then some m1 else if a = 2 then some m2 else none
    assetIdOrder := [1, 2] }

/-- Asset 1 is held on the first date (weight 1/2, day return +20%) and
sold to zero before the final date: a round trip with contribution 10%
and final allocation 0. -/
def exInp8 : AttrInput :=
  { positions := [⟨1, 0, 0, 50⟩, ⟨2, 0, 0, 50⟩, ⟨1, 1, 0, 0⟩, ⟨2, 1, 0, 100⟩,
                  ⟨1, 2, 0, 0⟩, ⟨2, 2, 0, 100⟩]
    price := fun a d =>
      if a = 1 then (if d = 0 then some 100 else if d = 1 then some 120 else none)
      else if a = 2 then some 10 else none
    asset := fun a => if a = 1 then some m1 else if a = 2 then some m2 else none
    assetIdOrder := [1, 2] }

/-- Three assets over one boundary: assets 1 and 2 tie with contribution
+2.5% each, asset 3 detracts -5%; assets 1 and 2 have different regions
so the domestic/foreign filters are non-trivial. -/
def exInp9 : AttrInput :=
  { positions := [⟨1, 0, 0, 25⟩, ⟨2, 0, 0, 25⟩, ⟨3, 0, 0, 50⟩,
                  ⟨1, 1, 0, 27⟩, ⟨2, 1, 0, 27⟩, ⟨3, 1, 0, 45⟩]
    price := fun a d =>
      if a = 1 then (if d = 0 then some 100 else if d = 1 then some 110 else none)
      else if a = 2 then (if d = 0 then some 200 else if d = 1 then some 220 else none)
      else if a = 3 then (if d = 0 then some 50 else if d = 1 then some 45 else none)
      else none
    asset := fun a =>
      if a = 1 then some m1 else if a = 2 then some m2 else if a = 3 then some m3 else none
    assetIdOrder := [1, 2, 3] }

/-- Assets 5 and 12 tie with contribution +5% each (equal weights 1/2,
equal +10% day returns).  CPython iterates the set `{5, 12}` in
hash-slot order `[12, 5]` (12 % 8 = 4 comes before 5 % 8 = 5), so the
record list — and hence the stable sort's tie order — is descending by
asset id. -/
def exInpTie : AttrInput :=
  { positions := [⟨5, 0, 0, 50⟩, ⟨12, 0, 0, 50⟩, ⟨5, 1, 0, 55⟩, ⟨12, 1, 0, 55⟩]
    price := fun a d =>
      if a = 5 then (if d = 0 then some 100 else if d = 1 then some 110 else none)
      else if a = 12 then (if d = 0 then some 200 else if d = 1 then some 220 else none)
      else none
    asset := fun a => if a = 5 then some m1 else if a = 12 then some m2 else none
    assetIdOrder := [12, 5] }

/-- A list whose `head?` is `some a` contains `a`. -/
theorem mem_of_head?_eq {α : Type} {l : List α} {a : α} (h : l.head? = some a) : a ∈ l := by
  cases l with
  | nil => simp at h
  | cons x xs =>
    simp only [List.head?_cons, Option.some.injEq] at h
    exact h ▸ List.mem_cons_self x xs

/-- A list whose `getLast?` is `some a` contains `a`. -/
theorem mem_of_getLast?_eq {α : Type} {l : List α} {a : α} (h : l.getLast? = some a) :
    a ∈ l := by
  have hm : a ∈ l.getLast? := Option.mem_def.mpr h
  obtain ⟨hne, rfl⟩ := List.mem_getLast?_eq_getLast hm
  exact List.getLast_mem hne

/-- The guarded additive fold of the daily loop, over any boundary list
and from any initial value, equals the initial value plus the sum over
the processed boundaries. -/
theorem contribAccum_gen (inp : AttrInput) (a : Nat) :
    ∀ (l : List (Nat × Nat)) (init : ℚ),
      l.foldl
          (fun acc b => if 0 < totalMV inp.positions b.1 then acc + dayTerm inp b.1 b.2 a else acc)
          init
        = init + ((l.filter (fun b => decide (0 < totalMV inp.positions b.1))).map
            (fun b => dayTerm inp b.1 b.2 a)).sum := by
  intro l
  induction l with
  | nil => intro init; simp
  | cons x xs ih =>
    intro init
    by_cases h : 0 < totalMV inp.positions x.1
    · simp [h, ih, List.filter_cons, add_assoc]
    · simp [h, ih, List.filter_cons]

/-- The per-asset accumulator of the daily loop in closed form. -/
theorem contribAccum_eq (inp : AttrInput) (a : Nat) :
    contribAccum inp a = contributionSum inp a := by
  unfold contribAccum contributionSum
  rw [contribAccum_gen]
  simp [dayTerm]

/-- The (total_weight, weight_count) fold of step 7, over any date list
and from any start, equals the filtered sum and the filtered count. -/
theorem avgWeightAccum_gen (inp : AttrInput) (a : Nat) :
    ∀ (l : List Nat) (s : ℚ) (n : Nat),
      l.foldl
          (fun acc d =>
            if 0 < totalMV inp.positions d then
              (acc.1 + mvAt inp.positions d a / totalMV inp.positions d, acc.2 + 1)
            else acc)
          (s, n)
        = (s + ((l.filter (fun d => decide (0 < totalMV inp.positions d))).map
              (fun d => mvAt inp.positions d a / totalMV inp.positions d)).sum,
           n + (l.filter (fun d => decide (0 < totalMV inp.positions d))).length) := by
  intro l
  induction l with
  | nil => intro s n; simp
  | cons x xs ih =>
    intro s n
    by_cases h : 0 < totalMV inp.positions x
    · simp only [List.foldl_cons, h, if_true, ih, List.filter_cons, decide_eq_true_eq,
        List.map_cons, List.sum_cons, List.length_cons]
      rw [Prod.mk.injEq]
      exact ⟨by ring, by omega⟩
    · simp [h, ih, List.filter_cons]

/-- The step-7 average weight in closed form. -/
theorem avgWeight_eq (inp : AttrInput) (a : Nat) :
    avgWeight inp a = avgWeightAllBoundaries inp a := by
  unfold avgWeight avgWeightAccum avgWeightAllBoundaries validPriorDates
  rw [avgWeightAccum_gen]
  simp

/-- A successful run of the engine returns exactly the built report. -/
theorem calc_ok_elim {inp : AttrInput} {r : AttributionReport}
    (h : calculate_twr_attribution inp = .ok r) : r = buildReport inp := by
  unfold calculate_twr_attribution at h
  by_cases he : inp.positions.isEmpty
  · rw [if_pos he] at h
    exact absurd h (by simp)
  · rw [if_neg he] at h
    exact (Except.ok.injEq _ _ ▸ h).symm

/-- The engine succeeds exactly on a non-empty position list. -/
theorem calc_ok_of_ne {inp : AttrInput} (h : inp.positions ≠ []) :
    calculate_twr_attribution inp = .ok (buildReport inp) := by
  unfold calculate_twr_attribution
  rw [if_neg (by simpa [List.isEmpty_iff] using h)]

/-- If every position row of asset `a` carries zero market value, the
grouped market-value lookup for `a` is zero on every date. -/
theorem mvAt_zero_of_all_zero {pos : List PosRow} {a : Nat}
    (hz : ∀ p ∈ pos, p.asset_id = a → p.market_value = 0) (d : Nat) :
    mvAt pos d a = 0 := by
  unfold mvAt
  cases hl : (rowsFor pos d a).getLast? with
  | none => rfl
  | some p =>
    have hp : p ∈ rowsFor pos d a := mem_of_getLast?_eq hl
    unfold rowsFor at hp
    rw [List.mem_filter] at hp
    have := of_decide_eq_true hp.2
    simpa [Option.elim] using hz p hp.1 this.2

/-- `mkDetail` keeps the asset id it is given. -/
theorem mkDetail_asset_id {inp : AttrInput} {a : Nat} {rec : AssetContribution}
    (h : mkDetail inp a = some rec) : rec.asset_id = a := by
  unfold mkDetail at h
  cases hm : inp.asset a with
  | none => rw [hm] at h; exact absurd h (by simp)
  | some m =>
    rw [hm] at h
    rw [Option.some.injEq] at h
    rw [← h]

/-- The fields of a record produced by `mkDetail`. -/
theorem mkDetail_fields {inp : AttrInput} {a : Nat} {rec : AssetContribution}
    (h : mkDetail inp a = some rec) :
    rec.contribution = contribAccum inp a * 100 ∧
    rec.avg_weight = avgWeight inp a ∧
    rec.period_return = periodReturn inp a ∧
    rec.current_allocation = some (currentAllocation inp a) := by
  unfold mkDetail at h
  cases hm : inp.asset a with
  | none => rw [hm] at h; exact absurd h (by simp)
  | some m =>
    rw [hm] at h
    rw [Option.some.injEq] at h
    rw [← h]
    exact ⟨rfl, rfl, rfl, rfl⟩

/-- C2: on the concrete two-asset scenario (prior weights 0.6 and 0.4,
prices 100→110 and 50→45 over one day boundary) the engine returns asset
day returns +10% and -10%, portfolio daily return 2%, contributions +6%
and -4%, period returns +10% and -10%, total TWR 2%, and a
reconciliation delta of exactly 0. -/
theorem c2_concrete_two_asset_scenario :
    assetDayReturn exInp2 1 0 1 = 1/10 ∧
    assetDayReturn exInp2 2 0 1 = -(1/10) ∧
    (calculate_twr_attribution exInp2).map (fun r =>
        (r.total_twr,
         r.daily_returns.map (fun d => (d.date, d.daily_return, d.portfolio_value)),
         r.total_contribution_check,
         |r.total_contribution_check - r.total_twr|))
      = .ok (2, [(0, 0, 100), (1, 2, 102)], 2, 0) ∧
    (assetDetails exInp2).map (fun r => (r.asset_id, r.period_return, r.contribution))
      = [(1, 10, 6), (2, -10, -4)] := by
  norm_num [calculate_twr_attribution, buildReport, totalTWR, dailyReturnsList,
    dailyPortfolioReturn, dayBoundaries, sortedDates, allAssetIds,
    totalMV, assetsAt, mvAt, rowsFor, dayTerm, weightPrev, assetDayReturn,
    contribAccum, avgWeight, avgWeightAccum, periodReturn, currentAllocation,
    mkDetail, assetDetails, pyStrOr, Except.map, exInp2, m1, m2,
    List.insertionSort, List.orderedInsert, List.dedup, List.pwFilter,
    List.filter, List.filterMap, List.foldl]

/-- C1 counterexample: on `exInp1` the reconciliation delta
`|Σ contribution − total_twr| = 100` percentage points, far above any
fixed tolerance such as 1e-4, yet the engine returns the report as a
normal success (no error, no invalid flag — the returned dict carries
only the raw sum `total_contribution_check`). -/
theorem c1_counterexample :
    (calculate_twr_attribution exInp1).map (fun r =>
        (|r.total_contribution_check - r.total_twr|, r.total_twr, r.total_contribution_check))
      = .ok (100, 300, 200) := by
  norm_num [calculate_twr_attribution, buildReport, totalTWR, dailyReturnsList,
    dailyPortfolioReturn, dayBoundaries, sortedDates, allAssetIds,
    totalMV, assetsAt, mvAt, rowsFor, dayTerm, weightPrev, assetDayReturn,
    contribAccum, avgWeight, avgWeightAccum, periodReturn, currentAllocation,
    mkDetail, assetDetails, pyStrOr, Except.map, exInp1, m1,
    List.insertionSort, List.orderedInsert, List.dedup, List.pwFilter,
    List.filter, List.filterMap, List.foldl]

/-- C1 amended: every successful report carries
`total_contribution_check = Σ contribution` over the full record list
(the raw reconciliation sum); no delta, tolerance or `is_valid` flag is
computed, and the report is returned normally regardless of how large
the delta is. -/
theorem c1_amended_raw_sum_attached (inp : AttrInput) (h : inp.positions ≠ []) :
    ∃ r, calculate_twr_attribution inp = .ok r ∧
      r.total_contribution_check = ((assetDetails inp).map (·.contribution)).sum :=
  ⟨buildReport inp, calc_ok_of_ne h, rfl⟩

/-- C1 amended witness at `exInp1`. -/
theorem c1_amended_witness :
    exInp1.positions ≠ [] ∧
    ∃ r, calculate_twr_attribution exInp1 = .ok r ∧
      r.total_contribution_check = ((assetDetails exInp1).map (·.contribution)).sum :=
  ⟨by simp [exInp1], c1_amended_raw_sum_attached exInp1 (by simp [exInp1])⟩

/-- C3 counterexample: `exInp3` has exactly one snapshot date in range
(fewer than 2), yet the engine does not raise: it returns a normal
report with zero TWR instead of `InsufficientDataError`. -/
theorem c3_counterexample :
    (sortedDates exInp3.positions).length = 1 ∧
    (calculate_twr_attribution exInp3).isOk = true ∧
    (calculate_twr_attribution exInp3).map (·.total_twr) = .ok 0 := by
  norm_num [calculate_twr_attribution, buildReport, totalTWR, dailyReturnsList,
    dailyPortfolioReturn, dayBoundaries, sortedDates, allAssetIds,
    totalMV, assetsAt, mvAt, rowsFor, Except.map, Except.isOk, Except.toBool, exInp3,
    List.insertionSort, List.orderedInsert, List.dedup, List.pwFilter,
    List.filter, List.filterMap, List.foldl]

/-- C3 amended: the engine fails (with the `ValueError` standing in for
`InsufficientDataError`) exactly when the position query returns zero
rows — i.e. zero snapshot dates; any non-empty input, including a
single snapshot date, yields a report. -/
theorem c3_amended_error_iff_no_rows (inp : AttrInput) :
    (∃ r, calculate_twr_attribution inp = .ok r) ↔ inp.positions ≠ [] := by
  constructor
  · rintro ⟨r, hr⟩ hnil
    unfold calculate_twr_attribution at hr
    rw [if_pos (List.isEmpty_iff.mpr hnil)] at hr
    exact absurd hr (by simp)
  · intro h
    exact ⟨buildReport inp, calc_ok_of_ne h⟩

/-- A missing prior or current price, or a non-positive prior price,
makes the loop's asset day return exactly 0. -/
theorem assetDayReturn_zero {inp : AttrInput} {a pd cd : Nat}
    (hp : inp.price a pd = none ∨ inp.price a cd = none ∨
      ∃ p, inp.price a pd = some p ∧ p ≤ 0) :
    assetDayReturn inp a pd cd = 0 := by
  unfold assetDayReturn
  cases h1 : inp.price a pd with
  | none => rfl
  | some p =>
    cases h2 : inp.price a cd with
    | none => rfl
    | some c =>
      rcases hp with h | h | ⟨q, hq, hle⟩
      · rw [h1] at h
        exact absurd h (by simp)
      · rw [h2] at h
        exact absurd h (by simp)
      · rw [h1, Option.some.injEq] at hq
        have hno : ¬(p ≠ 0 ∧ c ≠ 0 ∧ 0 < p) := by
          rintro ⟨-, -, hpos⟩
          rw [← hq] at hle
          exact absurd hpos (not_lt.mpr hle)
        show (if p ≠ 0 ∧ c ≠ 0 ∧ 0 < p then c / p - 1 else 0) = 0
        rw [if_neg hno]

/-- C4 counterexample: on `exInp4` the single day boundary `(0, 1)` has
both prices of asset 1 absent, and because the prior day's total market
value is 0 the boundary is skipped entirely: date 1 never appears in
`daily_returns`, so the day is *not* counted as a valid boundary. -/
theorem c4_counterexample :
    exInp4.price 1 0 = none ∧ exInp4.price 1 1 = none ∧
    dayBoundaries exInp4.positions = [(0, 1)] ∧
    (calculate_twr_attribution exInp4).map (fun r => r.daily_returns.map (·.date))
      = .ok [0] := by
  norm_num [calculate_twr_attribution, buildReport, dailyReturnsList,
    dailyPortfolioReturn, dayBoundaries, sortedDates, allAssetIds,
    totalMV, assetsAt, mvAt, rowsFor, Except.map, exInp4,
    List.insertionSort, List.orderedInsert, List.dedup, List.pwFilter,
    List.filter, List.filterMap, List.foldl]

/-- C4 amended: for a day boundary whose *prior-day total market value
is positive*, a missing prior price, a missing current price, or a
non-positive prior price makes that asset's contribution term for the
day exactly 0 (never NaN/None), and the day is still emitted as a valid
boundary in `daily_returns`; a boundary with non-positive prior-day
total market value is instead skipped entirely. -/
theorem c4_amended_missing_price_zero (inp : AttrInput) (pd cd a : Nat)
    (hb : (pd, cd) ∈ dayBoundaries inp.positions)
    (hmv : 0 < totalMV inp.positions pd)
    (hp : inp.price a pd = none ∨ inp.price a cd = none ∨
      ∃ p, inp.price a pd = some p ∧ p ≤ 0) :
    dayTerm inp pd cd a = 0 ∧ cd ∈ (dailyReturnsList inp).map (·.date) := by
  constructor
  · unfold dayTerm
    rw [assetDayReturn_zero hp, mul_zero]
  · have hzip := hb
    unfold dayBoundaries at hzip
    cases hds : sortedDates inp.positions with
    | nil =>
      rw [hds] at hzip
      simp at hzip
    | cons d0 rest =>
      unfold dailyReturnsList
      rw [hds]
      simp only [List.map_cons, List.mem_cons]
      right
      rw [List.mem_map]
      refine ⟨⟨cd, dailyPortfolioReturn inp pd cd * 100, totalMV inp.positions cd⟩, ?_, rfl⟩
      rw [List.mem_filterMap]
      exact ⟨(pd, cd), hb, by rw [if_pos hmv]⟩

/-- C4 amended witness: asset 5 has no prices at all on the processed
boundary `(0, 1)` of `exInp2`. -/
theorem c4_witness :
    ((0, 1) ∈ dayBoundaries exInp2.positions ∧
      0 < totalMV exInp2.positions 0 ∧ exInp2.price 5 0 = none) ∧
    dayTerm exInp2 0 1 5 = 0 ∧ 1 ∈ (dailyReturnsList exInp2).map (·.date) := by
  have h1 : (0, 1) ∈ dayBoundaries exInp2.positions := by
    norm_num [dayBoundaries, sortedDates, exInp2, List.insertionSort,
      List.orderedInsert, List.dedup, List.pwFilter]
  have h2 : 0 < totalMV exInp2.positions 0 := by
    norm_num [totalMV, assetsAt, mvAt, rowsFor, exInp2, List.dedup, List.pwFilter,
      List.filter]
  have h3 : exInp2.price 5 0 = none := by norm_num [exInp2]
  exact ⟨⟨h1, h2, h3⟩, c4_amended_missing_price_zero exInp2 0 1 5 h1 h2 (Or.inl h3)⟩

/-- C5: an asset that is present in the position table but carries zero
market value on every snapshot date in range gets an output record with
contribution exactly 0 and average weight exactly 0. -/
theorem c5_zero_asset_invariant (inp : AttrInput) (a : Nat)
    (hz : ∀ p ∈ inp.positions, p.asset_id = a → p.market_value = 0) :
    ∀ rec ∈ assetDetails inp, rec.asset_id = a →
      rec.contribution = 0 ∧ rec.avg_weight = 0 := by
  intro rec hrec hid
  unfold assetDetails at hrec
  rw [List.mem_filterMap] at hrec
  obtain ⟨b, hb, hmk⟩ := hrec
  have hba : b = a := by rw [← mkDetail_asset_id hmk, hid]
  subst hba
  obtain ⟨hc, hw, -, -⟩ := mkDetail_fields hmk
  have hmv0 : ∀ d, mvAt inp.positions d b = 0 := mvAt_zero_of_all_zero hz
  constructor
  · rw [hc, contribAccum_eq]
    unfold contributionSum
    rw [List.sum_eq_zero, zero_mul]
    intro x hx
    rw [List.mem_map] at hx
    obtain ⟨bd, hbd, hbx⟩ := hx
    rw [← hbx]
    unfold weightPrev
    rw [hmv0 bd.1]
    by_cases hbt : 0 < totalMV inp.positions bd.1
    · rw [if_pos hbt, zero_div, zero_mul]
    · rw [if_neg hbt, zero_mul]
  · rw [hw, avgWeight_eq]
    unfold avgWeightAllBoundaries
    have hsum :
        ((validPriorDates inp).map
          (fun d => mvAt inp.positions d b / totalMV inp.positions d)).sum = 0 := by
      apply List.sum_eq_zero
      intro x hx
      rw [List.mem_map] at hx
      obtain ⟨d, hd, hdx⟩ := hx
      rw [← hdx, hmv0 d, zero_div]
    by_cases hlen : 0 < (validPriorDates inp).length
    · rw [if_pos hlen, hsum, zero_div, zero_mul]
    · rw [if_neg hlen]

/-- C5 witness: in `exInp5` asset 3 is listed with zero market value on
both dates; its record exists and reports contribution 0 and average
weight 0. -/
theorem c5_witness :
    (∀ p ∈ exInp5.positions, p.asset_id = 3 → p.market_value = 0) ∧
    (assetDetails exInp5).map (fun r => (r.asset_id, r.contribution, r.avg_weight))
      = [(1, 6, 60), (2, -4, 40), (3, 0, 0)] ∧
    ∀ rec ∈ assetDetails exInp5, rec.asset_id = 3 →
      rec.contribution = 0 ∧ rec.avg_weight = 0 := by
  refine ⟨?_, ?_, c5_zero_asset_invariant exInp5 3 ?_⟩
  · norm_num [exInp5]
  · norm_num [assetDetails, mkDetail, allAssetIds, contribAccum,
      avgWeight, avgWeightAccum, periodReturn, currentAllocation, dayBoundaries,
      sortedDates, totalMV, assetsAt, mvAt, rowsFor, dayTerm, weightPrev,
      assetDayReturn, pyStrOr, exInp5, m1, m2, m3,
      List.insertionSort, List.orderedInsert, List.dedup, List.pwFilter,
      List.filter, List.filterMap, List.foldl]
  · norm_num [exInp5]

/-- C6 counterexample: in `exInp6` asset 1 has nonzero prior weight
(1/2) on exactly one of the two boundaries, so the mean the claim
specifies is 50; the engine divides by the count of *all* boundaries
with positive total market value and reports 25. -/
theorem c6_counterexample :
    (assetDetails exInp6).map (fun r => (r.asset_id, r.avg_weight)) = [(1, 25), (2, 75)] ∧
    claimAvgWeight exInp6 1 = 50 ∧ (25 : ℚ) ≠ 50 := by
  norm_num [assetDetails, mkDetail, allAssetIds, contribAccum,
    avgWeight, avgWeightAccum, periodReturn, currentAllocation, dayBoundaries,
    sortedDates, totalMV, assetsAt, mvAt, rowsFor, dayTerm, weightPrev,
    assetDayReturn, pyStrOr, claimAvgWeight, heldPriorDates, exInp6, m1, m2,
    List.insertionSort, List.orderedInsert, List.dedup, List.pwFilter,
    List.filter, List.filterMap, List.foldl]

/-- C6 amended: the reported `avg_weight` is the arithmetic mean of the
asset's prior-day weight over *all* non-final snapshot dates with
positive total market value — including the boundaries where the asset's
own weight is zero — times 100 (and 0 when there is no such date). -/
theorem c6_amended_avg_over_all_boundaries (inp : AttrInput) :
    ∀ rec ∈ assetDetails inp, rec.avg_weight = avgWeightAllBoundaries inp rec.asset_id := by
  intro rec hrec
  unfold assetDetails at hrec
  rw [List.mem_filterMap] at hrec
  obtain ⟨b, hb, hmk⟩ := hrec
  obtain ⟨-, hw, -, -⟩ := mkDetail_fields hmk
  rw [hw, mkDetail_asset_id hmk, avgWeight_eq]

/-- C6 amended witness: applied to the first record of `exInp6`. -/
theorem c6_witness :
    ∃ rec, (assetDetails exInp6).head? = some rec ∧
      rec.avg_weight = avgWeightAllBoundaries exInp6 rec.asset_id :=
  ⟨_, rfl, c6_amended_avg_over_all_boundaries exInp6 _ (mem_of_head?_eq rfl)⟩

/-- C7 counterexample: in `exInp7` asset 1 has zero market value at the
window start and is bought on the second date (entry price 50, final
price 60, holding-period return +20%); the engine nevertheless reports
`period_return = 60/100 - 1 = -40%`, computed from the price at the
window's first date. -/
theorem c7_counterexample :
    mvAt exInp7.positions 0 1 = 0 ∧ 0 < mvAt exInp7.positions 1 1 ∧
    (assetDetails exInp7).map (fun r => (r.asset_id, r.period_return)) = [(1, -40), (2, 0)] ∧
    claimPeriodReturn exInp7 1 = 20 ∧ ((-40 : ℚ)) ≠ 20 := by
  norm_num [assetDetails, mkDetail, allAssetIds, contribAccum,
    avgWeight, avgWeightAccum, periodReturn, currentAllocation, dayBoundaries,
    sortedDates, totalMV, assetsAt, mvAt, rowsFor, dayTerm, weightPrev,
    assetDayReturn, pyStrOr, claimPeriodReturn, entryDate, exitDate, exInp7, m1, m2,
    List.insertionSort, List.orderedInsert, List.dedup, List.pwFilter,
    List.filter, List.filterMap, List.foldl]

/-- C7 amended: the reported `period_return` is always computed from the
prices at the window's first and last snapshot dates (when both exist,
are truthy, and the first is positive), regardless of when the asset was
actually bought or sold. -/
theorem c7_amended_window_outer_prices (inp : AttrInput) (a fd ld : Nat) (fp lp : ℚ)
    (hfd : (sortedDates inp.positions).head? = some fd)
    (hld : (sortedDates inp.positions).getLast? = some ld)
    (hfp : inp.price a fd = some fp) (hlp : inp.price a ld = some lp)
    (h1 : fp ≠ 0) (h2 : lp ≠ 0) (h3 : 0 < fp) :
    ∀ rec ∈ assetDetails inp, rec.asset_id = a →
      rec.period_return = (lp / fp - 1) * 100 := by
  intro rec hrec hid
  unfold assetDetails at hrec
  rw [List.mem_filterMap] at hrec
  obtain ⟨b, hb, hmk⟩ := hrec
  have hba : b = a := by rw [← mkDetail_asset_id hmk, hid]
  subst hba
  obtain ⟨-, -, hpr, -⟩ := mkDetail_fields hmk
  rw [hpr]
  unfold periodReturn
  rw [hfd, hld]
  show (match inp.price b fd, inp.price b ld with
    | some fp, some lp => if fp ≠ 0 ∧ lp ≠ 0 ∧ 0 < fp then (lp / fp - 1) * 100 else 0
    | _, _ => 0) = (lp / fp - 1) * 100
  rw [hfp, hlp]
  show (if fp ≠ 0 ∧ lp ≠ 0 ∧ 0 < fp then (lp / fp - 1) * 100 else 0) = (lp / fp - 1) * 100
  rw [if_pos ⟨h1, h2, h3⟩]

/-- C7 amended witness: asset 1 of `exInp7` with window-outer prices 100
and 60. -/
theorem c7_witness :
    ∃ rec, (assetDetails exInp7).head? = some rec ∧
      rec.period_return = ((60 : ℚ) / 100 - 1) * 100 :=
  ⟨_, rfl,
    c7_amended_window_outer_prices exInp7 1 0 2 100 60
      (by decide) (by decide) rfl rfl (by norm_num) (by norm_num) (by norm_num)
      _ (mem_of_head?_eq rfl) rfl⟩

/-- C8: an asset with zero market value on the final snapshot date gets
`current_allocation = 0` while its contribution stays the accumulated
sum of daily weight-times-return terms, and the report is produced as a
normal success. -/
theorem c8_full_exit_round_trip (inp : AttrInput) (a dl : Nat)
    (hne : inp.positions ≠ [])
    (hlast : (sortedDates inp.positions).getLast? = some dl)
    (hmv : mvAt inp.positions dl a = 0) :
    (∃ r, calculate_twr_attribution inp = .ok r) ∧
    ∀ rec ∈ assetDetails inp, rec.asset_id = a →
      rec.current_allocation = some 0 ∧ rec.contribution = contributionSum inp a * 100 := by
  refine ⟨⟨buildReport inp, calc_ok_of_ne hne⟩, ?_⟩
  intro rec hrec hid
  unfold assetDetails at hrec
  rw [List.mem_filterMap] at hrec
  obtain ⟨b, hb, hmk⟩ := hrec
  have hba : b = a := by rw [← mkDetail_asset_id hmk, hid]
  subst hba
  obtain ⟨hc, -, -, hca⟩ := mkDetail_fields hmk
  constructor
  · rw [hca, Option.some.injEq]
    unfold currentAllocation
    rw [hlast]
    show (if 0 < totalMV inp.positions dl then
        mvAt inp.positions dl b / totalMV inp.positions dl * 100 else 0) = 0
    by_cases ht : 0 < totalMV inp.positions dl
    · rw [if_pos ht, hmv, zero_div, zero_mul]
    · rw [if_neg ht]
  · rw [hc, contribAccum_eq]

/-- C8 witness: in `exInp8` asset 1 is held with weight 1/2 and a +20%
day return on the first boundary, then sold to zero: its contribution is
10 (nonzero) while its final allocation is 0, and the report is a normal
success. -/
theorem c8_witness :
    ((∃ r, calculate_twr_attribution exInp8 = .ok r) ∧
      ∀ rec ∈ assetDetails exInp8, rec.asset_id = 1 →
        rec.current_allocation = some 0 ∧
        rec.contribution = contributionSum exInp8 1 * 100) ∧
    contributionSum exInp8 1 * 100 = 10 := by
  constructor
  · refine c8_full_exit_round_trip exInp8 1 2 (by simp [exInp8]) (by decide) ?_
    norm_num [mvAt, rowsFor, exInp8, List.filter]
  · norm_num [contributionSum, dayBoundaries, sortedDates, totalMV, assetsAt, mvAt,
      rowsFor, weightPrev, assetDayReturn, exInp8,
      List.insertionSort, List.orderedInsert, List.dedup, List.pwFilter,
      List.filter, List.filterMap]

/-- Inserting a record below `c` into a list leaves the records with
contribution exactly `c` untouched when the inserted record's
contribution differs from `c`. -/
theorem filter_orderedInsert_of_ne (x : AssetContribution) (c : ℚ)
    (hx : x.contribution ≠ c) :
    ∀ l : List AssetContribution,
      (List.orderedInsert contribGE x l).filter (fun y => y.contribution = c)
        = l.filter (fun y => y.contribution = c) := by
  intro l
  induction l with
  | nil => simp [List.orderedInsert, hx]
  | cons y ys ih =>
    show (if contribGE x y then x :: y :: ys else y :: List.orderedInsert contribGE x ys).filter
        (fun y => y.contribution = c)
      = (y :: ys).filter (fun y => y.contribution = c)
    by_cases hc : contribGE x y
    · rw [if_pos hc]
      simp [List.filter_cons, hx]
    · rw [if_neg hc]
      simp only [List.filter_cons, ih]

/-- Inserting a record with contribution exactly `c` into a
descending-sorted list places it in front of every other record with
contribution `c` (the elements it is inserted behind are strictly
larger). -/
theorem filter_orderedInsert_of_eq (x : AssetContribution) (c : ℚ)
    (hx : x.contribution = c) :
    ∀ l : List AssetContribution, l.Pairwise contribGE →
      (List.orderedInsert contribGE x l).filter (fun y => y.contribution = c)
        = x :: l.filter (fun y => y.contribution = c) := by
  intro l
  induction l with
  | nil => simp [List.orderedInsert, hx]
  | cons y ys ih =>
    intro hp
    rw [List.pairwise_cons] at hp
    obtain ⟨-, hys⟩ := hp
    show (if contribGE x y then x :: y :: ys else y :: List.orderedInsert contribGE x ys).filter
        (fun y => y.contribution = c)
      = x :: (y :: ys).filter (fun y => y.contribution = c)
    by_cases hc : contribGE x y
    · rw [if_pos hc]
      simp [List.filter_cons, hx]
    · rw [if_neg hc]
      have hyne : ¬ y.contribution = c := by
        intro hyc
        exact hc (le_of_eq (hyc.trans hx.symm))
      simp only [List.filter_cons, hyne, ih hys]
      simp [hyne]

/-- Stability of Python's `sorted(key=..., reverse=True)`: the records
carrying any fixed contribution value appear in the sorted output in
exactly their original order. -/
theorem insertionSort_stable_filter (c : ℚ) :
    ∀ l : List AssetContribution,
      (List.insertionSort contribGE l).filter (fun y => y.contribution = c)
        = l.filter (fun y => y.contribution = c) := by
  intro l
  induction l with
  | nil => simp [List.insertionSort]
  | cons x xs ih =>
    show (List.orderedInsert contribGE x (List.insertionSort contribGE xs)).filter
        (fun y => y.contribution = c)
      = (x :: xs).filter (fun y => y.contribution = c)
    by_cases hx : x.contribution = c
    · rw [filter_orderedInsert_of_eq x c hx _ (List.sorted_insertionSort contribGE xs), ih]
      simp [List.filter_cons, hx]
    · rw [filter_orderedInsert_of_ne x c hx, ih]
      simp [List.filter_cons, hx]

/-- C9 counterexample: in `exInpTie` assets 5 and 12 tie with
contribution +5 each, but CPython iterates the set `{5, 12}` as
`[12, 5]`, so the stable sort emits the tie in descending id order and
`top_contributors` is not ordered with ties ascending by asset id. -/
theorem c9_counterexample :
    (topContributors exInpTie).map (fun x => (x.asset_id, x.contribution))
      = [(12, 5), (5, 5)] ∧
    ¬ (topContributors exInpTie).Pairwise rankLT := by
  have hmap : (topContributors exInpTie).map (fun x => (x.asset_id, x.contribution))
      = [(12, 5), (5, 5)] := by
    norm_num [topContributors, rankedDetails, contribGE, assetDetails, mkDetail,
      contribAccum, avgWeight, avgWeightAccum,
      periodReturn, currentAllocation, dayBoundaries, sortedDates, totalMV,
      assetsAt, mvAt, rowsFor, dayTerm, weightPrev, assetDayReturn, pyStrOr,
      exInpTie, m1, m2, List.insertionSort, List.orderedInsert, List.dedup,
      List.pwFilter, List.filter, List.filterMap, List.foldl]
  refine ⟨hmap, ?_⟩
  intro hp
  cases hl : topContributors exInpTie with
  | nil => rw [hl] at hmap; simp at hmap
  | cons r1 rest =>
    cases hrest : rest with
    | nil => rw [hl, hrest] at hmap; simp at hmap
    | cons r2 rest2 =>
      rw [hl, hrest] at hmap hp
      simp only [List.map_cons, List.cons.injEq, Prod.mk.injEq] at hmap
      obtain ⟨⟨h1id, h1c⟩, ⟨h2id, h2c⟩, -⟩ := hmap
      rw [List.pairwise_cons] at hp
      rcases hp.1 r2 (List.mem_cons_self _ _) with h | ⟨-, h⟩
      · rw [h1c, h2c] at h
        exact absurd h (lt_irrefl 5)
      · rw [h1id, h2id] at h
        omega

/-- C9 amended: the ranking is a *stable* descending sort of the record
list split without truncation: the contributor/detractor lists are
permutations of exactly the strictly positive / strictly negative
records, both are ordered by contribution descending, and records with
equal contribution keep the record list's own (set-iteration) order —
which is not guaranteed to be ascending by asset id. -/
theorem c9_amended_stable_descending_split (inp : AttrInput) (r : AttributionReport)
    (h : calculate_twr_attribution inp = .ok r) :
    r.top_contributors.Perm
      ((assetDetails inp).filter (fun x => 0 < x.contribution)) ∧
    r.top_detractors.Perm
      ((assetDetails inp).filter (fun x => x.contribution < 0)) ∧
    r.top_contributors.Pairwise contribGE ∧
    r.top_detractors.Pairwise contribGE ∧
    ∀ c : ℚ, (rankedDetails inp).filter (fun x => x.contribution = c)
      = (assetDetails inp).filter (fun x => x.contribution = c) := by
  obtain rfl := calc_ok_elim h
  have hperm := List.perm_insertionSort contribGE (assetDetails inp)
  have hsort : (rankedDetails inp).Pairwise contribGE :=
    List.sorted_insertionSort contribGE (assetDetails inp)
  exact ⟨hperm.filter _, hperm.filter _, hsort.filter _, hsort.filter _,
    fun c => insertionSort_stable_filter c (assetDetails inp)⟩

/-- C9 amended witness: applied to `exInpTie`, whose two positive
records tie; the split is exact and both lists are descending-ordered,
while the tie stays in the set-iteration order `[12, 5]`. -/
theorem c9_amended_witness :
    ∃ r, calculate_twr_attribution exInpTie = .ok r ∧
      r.top_contributors.Perm
        ((assetDetails exInpTie).filter (fun x => 0 < x.contribution)) ∧
      r.top_contributors.Pairwise contribGE ∧
      r.top_detractors.Pairwise contribGE :=
  ⟨buildReport exInpTie, calc_ok_of_ne (by simp [exInpTie]),
    (c9_amended_stable_descending_split exInpTie _
      (calc_ok_of_ne (by simp [exInpTie]))).1,
    (c9_amended_stable_descending_split exInpTie _
      (calc_ok_of_ne (by simp [exInpTie]))).2.2.1,
    (c9_amended_stable_descending_split exInpTie _
      (calc_ok_of_ne (by simp [exInpTie]))).2.2.2.1⟩

/-- A successful detailed run copies its portfolio-level fields verbatim
from the unfiltered basic computation. -/
theorem detailed_ok_fields {inp : AttrInput} {f : AssetFilter} {r : AttributionReport}
    (h : calculate_detailed_twr_attribution inp f = .ok r) :
    r.total_twr = totalTWR inp ∧ r.daily_returns = dailyReturnsList inp := by
  unfold calculate_detailed_twr_attribution at h
  split at h
  · exact absurd h (by simp)
  · split at h
    · exact absurd h (by simp)
    · next basic heq =>
        rw [Except.ok.injEq] at h
        subst h
        obtain rfl := calc_ok_elim heq
        exact ⟨rfl, rfl⟩

/-- C10: two successful detailed runs on the same input that differ only
in the asset filter report the same total TWR and the same daily return
series — the filter never changes the portfolio-level return. -/
theorem c10_filter_independent_portfolio_return (inp : AttrInput) (f1 f2 : AssetFilter)
    (r1 r2 : AttributionReport)
    (h1 : calculate_detailed_twr_attribution inp f1 = .ok r1)
    (h2 : calculate_detailed_twr_attribution inp f2 = .ok r2) :
    r1.total_twr = r2.total_twr ∧ r1.daily_returns = r2.daily_returns := by
  obtain ⟨ha1, hb1⟩ := detailed_ok_fields h1
  obtain ⟨ha2, hb2⟩ := detailed_ok_fields h2
  rw [ha1, ha2, hb1, hb2]
  exact ⟨rfl, rfl⟩

/-- C10 witness: the ALL and DOMESTIC runs on `exInp9` both succeed and
agree on total TWR and daily returns. -/
theorem c10_witness :
    ∃ r1 r2, calculate_detailed_twr_attribution exInp9 .all = .ok r1 ∧
      calculate_detailed_twr_attribution exInp9 .domestic = .ok r2 ∧
      r1.total_twr = r2.total_twr ∧ r1.daily_returns = r2.daily_returns :=
  ⟨_, _, rfl, rfl,
    c10_filter_independent_portfolio_return exInp9 .all .domestic _ _ rfl rfl⟩
